import Mathlib

/-!
# Verification of the Benchmarking comparison-and-aggregation engine

This file embeds the core of the five benchmark scripts
(`benchmark_classification.py`, `benchmark_hscode.py`, `benchmark_invoice.py`,
`benchmark_parser.py`, `benchmark_summary.py`) in Lean 4 and settles the
spec's testable properties about them.

Modelling conventions:
* JSON values are the inductive `JVal`; Python floats are modelled as exact
  rationals (the claims only evaluate numeric comparisons far from any
  binary64 rounding boundary, and never stringify a non-integral float).
* A top-level document (guaranteed to be a mapping by the loaders) is an
  association list `Obj`.
* Python `==` is `pyEq`: numeric cross-type equality between bool/int/float,
  structural equality elsewhere (order-insensitive equality of nested dicts
  and numeric equality nested inside containers are not exercised by any
  claim and are modelled structurally).
* Operations that can raise in Python (`in` on a number, indexing a string
  by a string key) return `Except PyErr _`.
* Rational literals are written with `mkRat` so that concrete instances
  reduce in the kernel.
-/

set_option maxHeartbeats 1000000

inductive JVal where
  | null
  | jbool (x : Bool)
  | jint (n : ℤ)
  | jfloat (q : ℚ)
  | jstr (t : String)
  | jarr (xs : List JVal)
  | jobj (fs : List (String × JVal))

/-- Structural equality of JSON values (Python `==` restricted to
same-shaped values). -/
def JVal.beq : JVal → JVal → Bool
  | .null, .null => true
  | .jbool x, .jbool y => x == y
  | .jint m, .jint n => m == n
  | .jfloat p, .jfloat q => p == q
  | .jstr a, .jstr b => a == b
  | .jarr xs, .jarr ys => beqL xs ys
  | .jobj fs, .jobj gs => beqF fs gs
  | _, _ => false
where
  beqL : List JVal → List JVal → Bool
    | [], [] => true
    | a :: as, b :: bs => JVal.beq a b && beqL as bs
    | _, _ => false
  beqF : List (String × JVal) → List (String × JVal) → Bool
    | [], [] => true
    | (k, a) :: as, (l, b) :: bs => k == l && JVal.beq a b && beqF as bs
    | _, _ => false

instance : BEq JVal := ⟨JVal.beq⟩

theorem JVal.beq_refl : (v : JVal) → JVal.beq v v = true
  | .null => rfl
  | .jbool x => by simp [JVal.beq]
  | .jint n => by simp [JVal.beq]
  | .jfloat q => by simp [JVal.beq]
  | .jstr t => by simp [JVal.beq]
  | .jarr xs => by simpa [JVal.beq] using reflL xs
  | .jobj fs => by simpa [JVal.beq] using reflF fs
where
  reflL : (xs : List JVal) → JVal.beq.beqL xs xs = true
    | [] => rfl
    | a :: as => by
        simpa [JVal.beq.beqL] using And.intro (JVal.beq_refl a) (reflL as)
  reflF : (fs : List (String × JVal)) → JVal.beq.beqF fs fs = true
    | [] => rfl
    | (k, a) :: as => by
        simpa [JVal.beq.beqF] using And.intro (JVal.beq_refl a) (reflF as)

/-- `x is None` in Python. -/
def JVal.isNull : JVal → Bool
  | .null => true
  | _ => false

/-- The numeric value of a Python number (`bool` is an `int` subclass);
`none` for non-numbers. Used to model Python `==` across numeric types. -/
def JVal.asNum : JVal → Option ℚ
  | .jbool x => some (if x then 1 else 0)
  | .jint n => some (n : ℚ)
  | .jfloat q => some q
  | _ => none

/-- Python `==` on values: numeric cross-type equality, structural otherwise. -/
def pyEq (a b : JVal) : Bool :=
  match a.asNum, b.asNum with
  | some x, some y => x == y
  | _, _ => JVal.beq a b

theorem pyEq_refl (v : JVal) : pyEq v v = true := by
  unfold pyEq
  cases h : v.asNum <;> simp [JVal.beq_refl]

/-- Python `str.strip()` with no argument: remove leading and trailing
whitespace. (Python also strips some further Unicode space characters;
the claims only exercise ASCII whitespace.) -/
def pyStrip (t : String) : String :=
  (((t.toList.dropWhile Char.isWhitespace).reverse.dropWhile Char.isWhitespace).reverse).asString

/-- Python `str.split(sep)` for a one-character separator. -/
def splitChar (c : Char) : List Char → List (List Char)
  | [] => [[]]
  | a :: rest =>
      let r := splitChar c rest
      if a = c then [] :: r
      else
        match r with
        | h :: t => (a :: h) :: t
        | [] => [[a]]

/-- Does `pat` occur as a leading block of `cs`? -/
def listStartsWith : List Char → List Char → Bool
  | [], _ => true
  | _ :: _, [] => false
  | p :: ps, c :: cs => p == c && listStartsWith ps cs

/-- Python `pat in text` on strings: contiguous substring containment. -/
def listContainsSub : List Char → List Char → Bool
  | pat, [] => pat.isEmpty
  | pat, c :: rest => listStartsWith pat (c :: rest) || listContainsSub pat rest

example : pyStrip "  a b " = "a b" := by decide
example : (splitChar (Char.ofNat 46) "a.b".toList).map List.asString = ["a", "b"] := by decide
example : (splitChar (Char.ofNat 46) "".toList).map List.asString = [""] := by decide
example : listContainsSub "b".toList "abc".toList = true := by decide

/-- Decimal rendering of a rational whose denominator divides a power of ten;
used to model Python `str` on floats. `str(float)` proper is the shortest
round-trip decimal of the binary64 value; the claims never stringify a
non-integral float, so integral floats (`"100.0"`) are the only case that
must be exact. -/
def ratDecimal (q : ℚ) : String :=
  if q.den = 1 then toString q.num ++ ".0"
  else
    match (List.range 31).find? (fun k => (10 ^ k : ℕ) % q.den = 0) with
    | some k =>
        let scaled : ℤ := q.num * ((10 ^ k : ℕ) / q.den : ℕ)
        let mag := scaled.natAbs
        let intPart := mag / 10 ^ k
        let fracPart := mag % 10 ^ k
        let fracStr := toString fracPart
        let pad := String.mk (List.replicate (k - fracStr.length) (Char.ofNat 48))
        (if q.num < 0 then "-" else "") ++ toString intPart ++ "." ++ pad ++ fracStr
    | none => toString q.num ++ "/" ++ toString q.den

/-- Python `str()` of a value. Containers render through `repr` of their
elements as Python's `str(list)`/`str(dict)` do (string escaping inside
`repr` is not modelled; no claim stringifies a container). -/
def pyStr : JVal → String
  | .null => "None"
  | .jbool true => "True"
  | .jbool false => "False"
  | .jint n => toString n
  | .jfloat q => ratDecimal q
  | .jstr t => t
  | .jarr xs => "[" ++ ", ".intercalate (reprL xs) ++ "]"
  | .jobj fs => "\x7b" ++ ", ".intercalate (reprF fs) ++ "\x7d"
where
  quote (t : String) : String := (Char.ofNat 39).toString ++ t ++ (Char.ofNat 39).toString
  rep : JVal → String
    | .jstr t => quote t
    | .null => "None"
    | .jbool true => "True"
    | .jbool false => "False"
    | .jint n => toString n
    | .jfloat q => ratDecimal q
    | .jarr xs => "[" ++ ", ".intercalate (reprL xs) ++ "]"
    | .jobj fs => "\x7b" ++ ", ".intercalate (reprF fs) ++ "\x7d"
  reprL : List JVal → List String
    | [] => []
    | v :: vs => rep v :: reprL vs
  reprF : List (String × JVal) → List String
    | [] => []
    | (k, v) :: fs => (quote k ++ ": " ++ rep v) :: reprF fs

/-- Digits of a decimal literal read as a natural number. -/
def digitsVal (cs : List Char) : ℕ :=
  cs.foldl (fun a c => 10 * a + (c.toNat - 48)) 0

/-- Parse an unsigned decimal mantissa `digits[.digits]` / `.digits`,
returning its value and the unconsumed suffix. -/
def parseMantissa (cs : List Char) : Option (ℚ × List Char) :=
  let ip := cs.takeWhile Char.isDigit
  let r1 := cs.dropWhile Char.isDigit
  match r1 with
  | c :: r2 =>
      if c = Char.ofNat 46 then
        let fp := r2.takeWhile Char.isDigit
        let r3 := r2.dropWhile Char.isDigit
        if ip.isEmpty ∧ fp.isEmpty then none
        else some ((digitsVal ip : ℚ) + (digitsVal fp : ℚ) / 10 ^ fp.length, r3)
      else if ip.isEmpty then none else some ((digitsVal ip : ℚ), r1)
  | [] => if ip.isEmpty then none else some ((digitsVal ip : ℚ), [])

/-- Split an optional leading sign, returning `(sign, rest)`. -/
def splitSign (cs : List Char) : ℤ × List Char :=
  match cs with
  | c :: r => if c = '+' then (1, r) else if c = '-' then (-1, r) else (1, cs)
  | [] => (1, [])

/-- Python `float(str)`: optional surrounding whitespace, optional sign,
decimal mantissa, optional exponent. (`inf`/`nan` and digit-group
underscores are accepted by Python but unused by the claims.) -/
def parseFloat (t : String) : Option ℚ :=
  let cs := (pyStrip t).toList
  let (sgn, cs) := splitSign cs
  match parseMantissa cs with
  | none => none
  | some (m, rest) =>
      match rest with
      | [] => some ((sgn : ℚ) * m)
      | e :: r2 =>
          if e = 'e' ∨ e = 'E' then
            let (esgn, r3) := splitSign r2
            let ed := r3.takeWhile Char.isDigit
            let r4 := r3.dropWhile Char.isDigit
            if ed.isEmpty ∨ ¬ r4.isEmpty then none
            else some ((sgn : ℚ) * m * (10 : ℚ) ^ (esgn * (digitsVal ed : ℤ)))
          else none

/-- Python `float(x)`: numbers pass through, strings are parsed,
everything else (`None`, lists, dicts) raises `TypeError` (`none` here). -/
def pyFloat : JVal → Option ℚ
  | .jbool x => some (if x then 1 else 0)
  | .jint n => some (n : ℚ)
  | .jfloat q => some q
  | .jstr t => parseFloat t
  | _ => none

/-! ## difflib.SequenceMatcher

The similarity ratio used by every `compare_strings`. We model
`find_longest_match` by its documented contract (the longest block
`a[i:i+k] == b[j:j+k]`, ties broken by least `i`, then least `j`), which the
implementation satisfies when no element is junk; the `autojunk` heuristic
only activates for sequences of length ≥ 200, which no claim exercises. -/

/-- Is `a[i:i+k] == b[j:j+k]` (with both windows in range)? -/
def isBlock (a b : List Char) (i j k : ℕ) : Bool :=
  decide (i + k ≤ a.length) && decide (j + k ≤ b.length) &&
    ((a.drop i).take k == (b.drop j).take k)

/-- `find_longest_match` over whole sequences: first (longest `k`, then
least `i`, then least `j`) matching block; `(0, 0, 0)` when only empty
blocks match. -/
def flm (a b : List Char) : ℕ × ℕ × ℕ :=
  let cands :=
    ((List.range (min a.length b.length + 1)).reverse).flatMap fun k =>
      (List.range (a.length + 1)).flatMap fun i =>
        (List.range (b.length + 1)).filterMap fun j =>
          if isBlock a b i j k then some (i, j, k) else none
  cands.headD (0, 0, 0)

/-- Total size of the recursively collected matching blocks
(`get_matching_blocks`), with explicit fuel; each recursive call strictly
decreases the combined length, so the fuel in `msum` below never runs out. -/
def msumF : ℕ → List Char → List Char → ℕ
  | 0, _, _ => 0
  | n + 1, a, b =>
      match flm a b with
      | (i, j, k) =>
          if k = 0 then 0
          else msumF n (a.take i) (b.take j) + k + msumF n (a.drop (i + k)) (b.drop (j + k))

def msum (a b : List Char) : ℕ := msumF (a.length + b.length + 1) a b

/-- `SequenceMatcher(None, x, y).ratio()`: `2*M / T`, and `1.0` when both
strings are empty (difflib `_calculate_ratio`). -/
def smRatio (x y : String) : ℚ :=
  if x.toList.length + y.toList.length = 0 then 1
  else 2 * (msum x.toList y.toList : ℚ) / ((x.toList.length + y.toList.length : ℕ) : ℚ)

/-! ## The string and number matchers -/

/-- `compare_strings` as written identically in benchmark_classification.py,
benchmark_invoice.py and benchmark_parser.py (they differ only in the
default threshold — 0.85, 0.7, 0.85 — which each call site passes
explicitly here): exact equality first, then the absence check, then the
similarity ratio of the stringified values, with no stripping. -/
def compare_strings (y pred : JVal) (threshold : ℚ) : ℕ :=
  if pyEq y pred then 1
  else if y.isNull || pred.isNull then 0
  else if threshold ≤ smRatio (pyStr y) (pyStr pred) then 1 else 0

/-- `compare_strings` of benchmark_summary.py: same shape, but the two
values are stripped before the similarity ratio (`str(y).strip()`). -/
def compare_strings_summary (y pred : JVal) (threshold : ℚ) : ℕ :=
  if pyEq y pred then 1
  else if y.isNull || pred.isNull then 0
  else if threshold ≤ smRatio (pyStrip (pyStr y)) (pyStrip (pyStr pred)) then 1 else 0

/-- `norm_text` of benchmark_hscode.py: `None` stays `None`, anything else
is stringified and stripped. -/
def norm_text : JVal → Option String
  | .null => none
  | v => some (pyStrip (pyStr v))

/-- `compare_strings` of benchmark_hscode.py: normalizes both sides with
`norm_text` first, compares the normalized values for equality (so two
`None`s match), then the absence check, then the similarity ratio. -/
def compare_strings_hs (y pred : JVal) (threshold : ℚ) : ℕ :=
  let ys := norm_text y
  let ps := norm_text pred
  if ys == ps then 1
  else
    match ys, ps with
    | some a, some c => if threshold ≤ smRatio a c then 1 else 0
    | _, _ => 0

/-- The coercion step of `compare_numbers`:
`float(v) if v is not None else 0.0`; `none` models the `except` branch. -/
def floatOrZero (v : JVal) : Option ℚ :=
  if v.isNull then some 0 else pyFloat v

/-- `compare_numbers` of benchmark_invoice.py: exact equality, then numeric
coercion (absent → `0.0`, failure → result 0), the both-zero shortcut, then
relative difference `|a-b| / max(|a|, |b|, 1e-9)` against the tolerance. -/
def compare_numbers (y pred : JVal) (tolerance : ℚ) : ℕ :=
  if pyEq y pred then 1
  else
    match floatOrZero y, floatOrZero pred with
    | some yf, some pf =>
        if yf = 0 ∧ pf = 0 then 1
        else
          let denom := max (max |yf| |pf|) (mkRat 1 1000000000)
          if |yf - pf| / denom ≤ tolerance then 1 else 0
    | _, _ => 0

/-! ## CodeNormalizer (benchmark_hscode.py / benchmark_summary.py) -/

/-- Python `str.isdigit()`: nonempty and all digits (ASCII range; Python
also accepts other Unicode digit characters, unused by the claims). -/
def pyIsDigit (t : String) : Bool :=
  !t.toList.isEmpty && t.toList.all Char.isDigit

/-- `normalize_hs`: `None` → `""`, otherwise stringify, strip, and remove
every non-digit character (`_DIGITS_RE.sub("", s)`). -/
def normalize_hs : JVal → String
  | .null => ""
  | v => ((pyStrip (pyStr v)).toList.filter Char.isDigit).asString

/-- `is_valid_hs_10`: exactly 10 characters and all digits. -/
def is_valid_hs_10 (code : String) : Bool :=
  code.length == 10 && pyIsDigit code

/-- `is_valid_hs_6plus`: at least 6 characters and the first 6 are digits. -/
def is_valid_hs_6plus (code : String) : Bool :=
  decide (6 ≤ code.length) && pyIsDigit (code.toList.take 6).asString

/-- `prefix_match`: 1 iff both codes have at least `k` characters and their
first `k` characters agree, else 0. -/
def prefix_match (gt pr : String) (k : ℕ) : ℕ :=
  if gt.length < k ∨ pr.length < k then 0
  else if gt.toList.take k == pr.toList.take k then 1 else 0

/-! ## Documents and field access -/

/-- A top-level document; the loaders guarantee the top level is a mapping
(`load_json`/`process_file` reject or crash on anything else). -/
abbrev Obj := List (String × JVal)

/-- First binding of `k` (Python dicts have unique keys). -/
def lookupJ (fs : List (String × JVal)) (k : String) : Option JVal :=
  (fs.find? (fun p => p.1 == k)).map (·.2)

/-- Python `d.get(k, dflt)` on a mapping. -/
def getD (d : Obj) (k : String) (dflt : JVal) : JVal := (lookupJ d k).getD dflt

/-- Python `d.get(k)` on a mapping (absent → `None`). -/
def getN (d : Obj) (k : String) : JVal := getD d k .null

/-- `item or {}` followed by `.get`: a mapping's fields. `None` and the
other falsy values turn into the empty mapping exactly as in Python; a
*truthy* non-mapping item raises `AttributeError` in Python, so theorems
quantifying over whole documents restrict items to mappings or `None`. -/
def itemFields : JVal → Obj
  | .jobj fs => fs
  | _ => []

/-- `d.get("items", []) or []`. Falsy non-list values (`None`, `""`, `{}`,
`0`) become `[]` exactly as in Python; a truthy non-list later raises in
Python and is excluded by the theorems' well-formedness hypotheses. -/
def itemsOf (d : Obj) : List JVal :=
  match getD d "items" (.jarr []) with
  | .jarr xs => xs
  | _ => []

/-- Is every element of the `items` list a mapping or `None`? (The shape
under which the Python loops cannot raise.) -/
def itemsWF (d : Obj) : Bool :=
  (itemsOf d).all fun it =>
    match it with
    | .jobj _ => true
    | .null => true
    | _ => false

/-! ## PathResolver (benchmark_parser.py `safe_get`) -/

inductive PyErr where
  | typeError
  | keyError
  deriving DecidableEq

/-- Python `k in d` for a string key: mapping-key membership, substring
test on strings, element equality on lists, `TypeError` on numbers,
booleans and `None`. -/
def pyContains (k : String) : JVal → Except PyErr Bool
  | .jobj fs => .ok (lookupJ fs k).isSome
  | .jstr t => .ok (listContainsSub k.toList t.toList)
  | .jarr xs => .ok (xs.any (fun v => pyEq v (.jstr k)))
  | _ => .error .typeError

/-- Python `d[k]` for a string key: mapping lookup; strings and lists
reject string subscripts with `TypeError`. -/
def pySubscript (d : JVal) (k : String) : Except PyErr JVal :=
  match d with
  | .jobj fs =>
      match lookupJ fs k with
      | some v => .ok v
      | none => .error .keyError
  | _ => .error .typeError

/-- The loop of `safe_get` over the already-split path segments:
`if d is None or k not in d: return None` then `d = d[k]`. -/
def safe_get_walk : JVal → List String → Except PyErr JVal
  | d, [] => .ok d
  | d, k :: ks =>
      if d.isNull then .ok .null
      else do
        let mem ← pyContains k d
        if !mem then .ok .null
        else do
          let v ← pySubscript d k
          safe_get_walk v ks

/-- `path.split(".")`. -/
def pathSeg (path : String) : List String :=
  (splitChar (Char.ofNat 46) path.toList).map List.asString

/-- `safe_get(d, path)`: split the path on dots, then walk. -/
def safe_get (d : JVal) (path : String) : Except PyErr JVal :=
  safe_get_walk d (pathSeg path)

/-- The walk only meets mappings (or `None`, or a missing key, which stop
it); the condition under which `safe_get` is total (amended claim C8). -/
def dictPathOk : JVal → List String → Bool
  | _, [] => true
  | d, k :: ks =>
      match d with
      | .null => true
      | .jobj fs =>
          match lookupJ fs k with
          | none => true
          | some v => dictPathOk v ks
      | _ => false

/-! ## benchmark_classification.py -/

/-- Dict insertion `result[path] = ftype`: overwrite in place, or append a
new binding. -/
def dictInsert (m : List (String × String)) (k v : String) : List (String × String) :=
  if m.any (fun p => p.1 == k) then m.map (fun p => if p.1 == k then (k, v) else p)
  else m ++ [(k, v)]

def lookupS (m : List (String × String)) (k : String) : Option String :=
  (m.find? (fun p => p.1 == k)).map (·.2)

/-- `obj.get("files", [])`. (A non-list truthy `files` value raises when
iterated in Python and is excluded by the theorems' hypotheses.) -/
def filesOf (d : Obj) : List JVal :=
  match getD d "files" (.jarr []) with
  | .jarr xs => xs
  | _ => []

/-- `str(f.get("path", "")).strip()` of one `files` entry. -/
def pathKey (f : JVal) : String := pyStrip (pyStr (getD (itemFields f) "path" (.jstr "")))

/-- `str(f.get("type", "")).strip()` of one `files` entry. -/
def typeVal (f : JVal) : String := pyStrip (pyStr (getD (itemFields f) "type" (.jstr "")))

/-- `build_path_map`: fold the entries; a falsy (empty) trimmed path is
skipped, later entries overwrite earlier ones. -/
def build_path_map (d : Obj) : List (String × String) :=
  (filesOf d).foldl
    (fun m f => if pathKey f = "" then m else dictInsert m (pathKey f) (typeVal f)) []

/-- The common paths (`gt_paths & pred_paths`) with their ground-truth
types, in ground-truth insertion order. Python iterates the *set*
`common_paths`, whose order is unspecified; every aggregate computed from
this list is order-independent, so a fixed order is a sound model. -/
def commonPairs (gt pred : Obj) : List (String × String) :=
  (build_path_map gt).filter (fun p => (lookupS (build_path_map pred) p.1).isSome)

/-- `len(missing)` where `missing = gt_paths - pred_paths`. -/
def class_missing (gt pred : Obj) : ℕ :=
  ((build_path_map gt).filter (fun p => (lookupS (build_path_map pred) p.1).isNone)).length

/-- `len(extra)` where `extra = pred_paths - gt_paths`. -/
def class_extra (gt pred : Obj) : ℕ :=
  ((build_path_map pred).filter (fun p => (lookupS (build_path_map gt) p.1).isNone)).length

/-- `n_items = len(gt_map)`. -/
def class_n_items (gt : Obj) : ℕ := (build_path_map gt).length

/-- The 0/1 outcome `compare_strings(gt_type, pred_type)` for one common
path (threshold 0.85, the classification default). -/
def classMatch (pred : Obj) (p : String × String) : ℕ :=
  compare_strings (.jstr p.2) (.jstr ((lookupS (build_path_map pred) p.1).getD ""))
    (mkRat 85 100)

/-- `correct`: the sum of the common-path outcomes. -/
def class_correct (gt pred : Obj) : ℕ := ((commonPairs gt pred).map (classMatch pred)).sum

/-- `accuracy = (correct / n_items * 100) if n_items else 0`. -/
def class_accuracy (gt pred : Obj) : ℚ :=
  if class_n_items gt = 0 then 0
  else (class_correct gt pred : ℚ) / (class_n_items gt : ℚ) * 100

/-- Keep first occurrences, structurally (kernel-reducible). -/
def dedupFirstAux : List String → List String → List String
  | _, [] => []
  | seen, x :: xs =>
      if seen.contains x then dedupFirstAux seen xs
      else x :: dedupFirstAux (x :: seen) xs

def dedupFirst (l : List String) : List String := dedupFirstAux [] l

/-- The distinct ground-truth types seen over the common paths (the keys of
`per_type_stats`; tallies are independent of Python's set iteration
order). -/
def classTypes (gt pred : Obj) : List String := dedupFirst ((commonPairs gt pred).map (·.2))

/-- `per_type` percentages: for each type, correct/total*100 over the
common paths carrying that ground-truth type (total ≥ 1 by
construction). -/
def class_per_type (gt pred : Obj) : List (String × ℚ) :=
  (classTypes gt pred).map fun t =>
    let group := (commonPairs gt pred).filter (fun p => p.2 == t)
    (t, ((group.map (classMatch pred)).sum : ℚ) / (group.length : ℚ) * 100)

/-! ## benchmark_hscode.py `evaluate` -/

/-- `normalize_hs(item.get("hs_code"))`. -/
def hsOf (g : JVal) : String := normalize_hs (getN (itemFields g) "hs_code")

def hs_n_items (gt : Obj) : ℕ := (itemsOf gt).length

def hs_gt_valid_10 (gt : Obj) : ℕ :=
  ((itemsOf gt).filter (fun g => is_valid_hs_10 (hsOf g))).length

def hs_gt_valid_6 (gt : Obj) : ℕ :=
  ((itemsOf gt).filter (fun g => is_valid_hs_6plus (hsOf g))).length

/-- Predicted-side validity counters run only over the index-aligned part
(`for i in range(n_gt): if i < n_pr`), i.e. over the zip. -/
def hs_pr_valid_10 (gt pred : Obj) : ℕ :=
  (((itemsOf gt).zip (itemsOf pred)).filter (fun gp => is_valid_hs_10 (hsOf gp.2))).length

def hs_pr_valid_6 (gt pred : Obj) : ℕ :=
  (((itemsOf gt).zip (itemsOf pred)).filter (fun gp => is_valid_hs_6plus (hsOf gp.2))).length

def hs_item_name_matches (gt pred : Obj) (minSim : ℚ) : ℕ :=
  (((itemsOf gt).zip (itemsOf pred)).map (fun gp =>
    compare_strings_hs (getN (itemFields gp.1) "item_name")
      (getN (itemFields gp.2) "item_name") minSim)).sum

/-- `prefix_hits[k]`. -/
def hs_prefix_hits (gt pred : Obj) (k : ℕ) : ℕ :=
  (((itemsOf gt).zip (itemsOf pred)).map (fun gp =>
    prefix_match (hsOf gp.1) (hsOf gp.2) k)).sum

/-- `(c / n * 100.0) if n else 0.0` — the percentage with the zero-division
guard, shared by the hscode and summary evaluators. -/
def pctOf (c n : ℕ) : ℚ := if n = 0 then 0 else (c : ℚ) / (n : ℚ) * 100

def hs_seller_pct (gt pred : Obj) (minSim : ℚ) : ℚ :=
  (compare_strings_hs (getN gt "seller_name") (getN pred "seller_name") minSim : ℚ) * 100

def hs_item_name_pct (gt pred : Obj) (minSim : ℚ) : ℚ :=
  pctOf (hs_item_name_matches gt pred minSim) (hs_n_items gt)

def hs_y10_pct (gt : Obj) : ℚ := pctOf (hs_gt_valid_10 gt) (hs_n_items gt)

def hs_y6_pct (gt : Obj) : ℚ := pctOf (hs_gt_valid_6 gt) (hs_n_items gt)

def hs_pred10_pct (gt pred : Obj) : ℚ := pctOf (hs_pr_valid_10 gt pred) (hs_n_items gt)

def hs_pred6_pct (gt pred : Obj) : ℚ := pctOf (hs_pr_valid_6 gt pred) (hs_n_items gt)

/-- `acc[k]` — the prefix-accuracy curve entry at `k` (the report's
`accuracy_10`/`accuracy_6` and `metadata.accuracy_k`). -/
def hs_accuracy (gt pred : Obj) (k : ℕ) : ℚ :=
  pctOf (hs_prefix_hits gt pred k) (hs_n_items gt)

/-! ## benchmark_invoice.py -/

def inv_n_items (y : Obj) : ℕ := (itemsOf y).length

def inv_seller (y pred : Obj) : ℕ :=
  compare_strings (getN y "seller_name") (getN pred "seller_name") (mkRat 7 10)

def inv_sum_qty (y pred : Obj) : ℕ :=
  compare_numbers (getN y "sum_total_quantity") (getN pred "sum_total_quantity") (mkRat 1 1000)

def inv_sum_price (y pred : Obj) : ℕ :=
  compare_numbers (getN y "sum_total_price") (getN pred "sum_total_price") (mkRat 1 1000)

def inv_currency (y pred : Obj) : ℕ :=
  compare_strings (getN y "currency") (getN pred "currency") (mkRat 7 10)

def inv_item_count_match (y pred : Obj) : ℕ :=
  if inv_n_items y = inv_n_items pred then 1 else 0

/-- `missing_items = max(0, len(y_items) - len(pred_items))` (ℕ subtraction
truncates at 0, which is exactly `max(0, ·)`). -/
def inv_missing (y pred : Obj) : ℕ := inv_n_items y - inv_n_items pred

/-- `extra_items = max(0, len(pred_items) - len(y_items))`. -/
def inv_extra (y pred : Obj) : ℕ := inv_n_items pred - inv_n_items y

def inv_item_name_matches (y pred : Obj) : ℕ :=
  (((itemsOf y).zip (itemsOf pred)).map (fun gp =>
    compare_strings (getN (itemFields gp.1) "item_name")
      (getN (itemFields gp.2) "item_name") (mkRat 7 10))).sum

def inv_quantity_matches (y pred : Obj) : ℕ :=
  (((itemsOf y).zip (itemsOf pred)).map (fun gp =>
    compare_numbers (getN (itemFields gp.1) "quantity")
      (getN (itemFields gp.2) "quantity") (mkRat 1 1000))).sum

def inv_unit_price_matches (y pred : Obj) : ℕ :=
  (((itemsOf y).zip (itemsOf pred)).map (fun gp =>
    compare_numbers (getN (itemFields gp.1) "unit_price")
      (getN (itemFields gp.2) "unit_price") (mkRat 1 1000))).sum

def inv_total_price_matches (y pred : Obj) : ℕ :=
  (((itemsOf y).zip (itemsOf pred)).map (fun gp =>
    compare_numbers (getN (itemFields gp.1) "total_price")
      (getN (itemFields gp.2) "total_price") (mkRat 1 1000))).sum

/-- The per-item percentage of the invoice report in `main`:
`count / max(n_items, 1) * 100`. -/
def inv_report_pct (count n_items : ℕ) : ℚ :=
  (count : ℚ) / ((max n_items 1 : ℕ) : ℚ) * 100

/-! ## benchmark_summary.py -/

/-- `extract_pairs`: each dict item contributes its `(normalize_hs(key),
str(value))` pairs (the one-key and multi-key branches of the source
produce exactly this); a non-dict item contributes `("", "")`. -/
def extract_pairs (d : Obj) : List (String × String) :=
  (itemsOf d).flatMap fun it =>
    match it with
    | .jobj fs =>
        fs.map (fun kv => (normalize_hs (.jstr kv.1), if kv.2.isNull then "" else pyStr kv.2))
    | _ => [("", "")]

def sum_n_items (d : Obj) : ℕ := (extract_pairs d).length

def sum_seller (gt pred : Obj) (minSim : ℚ) : ℕ :=
  compare_strings_summary (getN gt "seller_name") (getN pred "seller_name") minSim

def sum_seller_pct (gt pred : Obj) (minSim : ℚ) : ℚ := (sum_seller gt pred minSim : ℚ) * 100

/-- `hs_exact`: index-aligned pairs with both codes nonempty (truthiness of
the digit strings) and equal. -/
def sum_hs_exact (gt pred : Obj) : ℕ :=
  (((extract_pairs gt).zip (extract_pairs pred)).filter (fun gp =>
    !gp.1.1.isEmpty && !gp.2.1.isEmpty && gp.1.1 == gp.2.1)).length

def sum_summary_match (gt pred : Obj) (minSim : ℚ) : ℕ :=
  (((extract_pairs gt).zip (extract_pairs pred)).map (fun gp =>
    compare_strings_summary (.jstr gp.1.2) (.jstr gp.2.2) minSim)).sum

def sum_hs_pct (gt pred : Obj) : ℚ := pctOf (sum_hs_exact gt pred) (sum_n_items gt)

def sum_summary_pct (gt pred : Obj) (minSim : ℚ) : ℚ :=
  pctOf (sum_summary_match gt pred minSim) (sum_n_items gt)

def sum_item_count_pct (gt pred : Obj) : ℚ :=
  if sum_n_items gt = sum_n_items pred then 100 else 0

def sum_missing (gt pred : Obj) : ℕ := sum_n_items gt - sum_n_items pred

def sum_extra (gt pred : Obj) : ℕ := sum_n_items pred - sum_n_items gt

def sum_pr_hs10_valid (pred : Obj) : ℕ :=
  ((extract_pairs pred).filter (fun p => is_valid_hs_10 p.1)).length

def sum_pr_hs10_pct (gt pred : Obj) : ℚ := pctOf (sum_pr_hs10_valid pred) (sum_n_items gt)

/-! ## benchmark_parser.py -/

def fields_to_check : List String :=
  ["seller_name",
   "fields.field_6",
   "fields.field_10.subfield_a",
   "fields.field_10.subfield_b",
   "fields.field_15",
   "fields.field_15a.subfield_a",
   "fields.field_15a.subfield_b",
   "fields.field_17",
   "fields.field_17a.subfield_a",
   "fields.field_17a.subfield_b",
   "fields.field_18.subfield_left",
   "fields.field_18.subfield_right",
   "fields.field_19",
   "fields.field_21.subfield_left",
   "fields.field_21.subfield_right",
   "fields.field_31.subfield_1_left",
   "fields.field_31.subfield_1_right",
   "fields.field_31.subfield_2"]

/-- The loop of the generic-field evaluator over the checked paths: each
path is resolved in both documents and the values compared at threshold
0.85. A `safe_get` exception propagates (it would crash the Python run). -/
def evalFields (gt pred : Obj) : List String → Except PyErr (List (String × ℕ))
  | [] => .ok []
  | fld :: rest => do
      let gv ← safe_get (.jobj gt) fld
      let pv ← safe_get (.jobj pred) fld
      let r ← evalFields gt pred rest
      pure ((fld, compare_strings gv pv (mkRat 85 100)) :: r)

/-- The `results` dict of the generic-field evaluator. -/
def genericFieldResults (gt pred : Obj) : Except PyErr (List (String × ℕ)) :=
  evalFields gt pred fields_to_check

/-- `accuracy = (correct / len(fields_to_check)) * 100`. -/
def generic_accuracy (results : List (String × ℕ)) : ℚ :=
  ((results.map (·.2)).sum : ℚ) / (fields_to_check.length : ℚ) * 100

/-! ## Concrete documents used by counterexamples, scenarios and witnesses -/

/-- The ground-truth document of the spec's classification scenario. -/
def classGtDoc : Obj :=
  [("files", .jarr
    [.jobj [("path", .jstr "a.pdf"), ("type", .jstr "invoice")],
     .jobj [("path", .jstr "b.pdf"), ("type", .jstr "receipt")]])]

/-- The predicted document of the spec's classification scenario. -/
def classPrDoc : Obj :=
  [("files", .jarr
    [.jobj [("path", .jstr "a.pdf"), ("type", .jstr "invoice")],
     .jobj [("path", .jstr "c.pdf"), ("type", .jstr "receipt")]])]

/-- A one-item document whose HS code normalizes to only 6 digits. -/
def hs6Doc : Obj :=
  [("seller_name", .jstr "s"),
   ("items", .jarr [.jobj [("item_name", .jstr "a"), ("hs_code", .jstr "123456")]])]

/-- A document with exactly three (empty) items. -/
def threeItemDoc : Obj := [("items", .jarr [.jobj [], .jobj [], .jobj []])]

/-- A document with exactly five (empty) items. -/
def fiveItemDoc : Obj :=
  [("items", .jarr [.jobj [], .jobj [], .jobj [], .jobj [], .jobj []])]

/-- A summary-style document: one item mapping an HS code to a text. -/
def sumSelfDoc : Obj := [("items", .jarr [.jobj [("123456", .jstr "some text")]])]

/-- An hscode document whose single item has a full 10-digit code. -/
def hsValidDoc : Obj :=
  [("seller_name", .jstr "s"),
   ("items", .jarr [.jobj [("item_name", .jstr "a"), ("hs_code", .jstr "1234567890")]])]

/-- A `files` list with a whitespace-only path and a duplicated path. -/
def dupPathDoc : Obj :=
  [("files", .jarr
    [.jobj [("path", .jstr "  "), ("type", .jstr "memo")],
     .jobj [("path", .jstr "a.pdf"), ("type", .jstr "invoice")],
     .jobj [("path", .jstr " a.pdf "), ("type", .jstr "receipt")]])]

/-
=======================================================================
Theorems
=======================================================================
-/

example : parseFloat "abc" = none := by decide
example : pyEq (.jint 1) (.jfloat 1) = true := by decide
example : pyEq (.jint 1) (.jstr "1") = false := by decide
example : ratDecimal (mkRat 2001 20) = "100.05" := by decide
example : JVal.beq (.jarr [.jint 3, .null]) (.jarr [.jint 3, .null]) = true := by decide
example : msum " x ".toList "x".toList = 1 := by decide
example : msum "abcd".toList "abcd".toList = 4 := by decide
example : msum "abxd".toList "abyd".toList = 3 := by decide
example : normalize_hs (.jstr " 1234.56.78.90 ") = "1234567890" := by decide
example : safe_get (.jobj [("x", .jint 5)]) "x.a" = .error .typeError := by rfl
example : safe_get (.jobj [("x", .jobj [("a", .jint 5)])]) "x.a" = .ok (.jint 5) := by rfl
example : safe_get (.jobj [("x", .jobj [])]) "x.a.b" = .ok .null := by rfl

/-! ### Self-match behaviour of the matchers (shared helpers) -/

theorem compare_strings_self (v : JVal) (t : ℚ) : compare_strings v v t = 1 := by
  simp [compare_strings, pyEq_refl]

theorem compare_strings_summary_self (v : JVal) (t : ℚ) :
    compare_strings_summary v v t = 1 := by
  simp [compare_strings_summary, pyEq_refl]

theorem compare_strings_hs_self (v : JVal) (t : ℚ) : compare_strings_hs v v t = 1 := by
  simp [compare_strings_hs]

theorem compare_numbers_self (v : JVal) (t : ℚ) : compare_numbers v v t = 1 := by
  simp [compare_numbers, pyEq_refl]

/-- Sum over a self-zipped list of a function that scores 1 on every
diagonal pair. -/
theorem zip_self_sum {α : Type} (f : α × α → ℕ) :
    ∀ xs : List α, (∀ x ∈ xs, f (x, x) = 1) → ((xs.zip xs).map f).sum = xs.length
  | [], _ => rfl
  | x :: xs, h => by
      have hx := h x (by simp)
      have ih := zip_self_sum f xs (fun y hy => h y (by simp [hy]))
      simp [List.zip_cons_cons, hx, ih, Nat.add_comm]

/-! ### C5: prefix_match characterization and monotonicity -/

/-- C5. `prefix_match(gt, pred, k)` is 1 iff both codes have length ≥ k and
their first `k` characters agree (else 0), and for a fixed pair it is
non-increasing as `k` increases from 1 to 10. -/
theorem prefix_match_spec :
    (∀ g p k, prefix_match g p k = 1 ↔
        k ≤ g.length ∧ k ≤ p.length ∧ g.toList.take k = p.toList.take k) ∧
    (∀ g p k, prefix_match g p k = 0 ∨ prefix_match g p k = 1) ∧
    (∀ g p k₁ k₂, 1 ≤ k₁ → k₁ ≤ k₂ → k₂ ≤ 10 →
        prefix_match g p k₂ ≤ prefix_match g p k₁) := by
  have hiff : ∀ g p k, prefix_match g p k = 1 ↔
      k ≤ g.length ∧ k ≤ p.length ∧ g.toList.take k = p.toList.take k := by
    intro g p k
    unfold prefix_match
    split
    · next h =>
        constructor
        · intro h1; exact absurd h1 (by decide)
        · intro ⟨h1, h2, _⟩
          rcases h with h | h <;> omega
    · next h =>
        push_neg at h
        split
        · next heq =>
            simp only [beq_iff_eq] at heq
            exact ⟨fun _ => ⟨h.1, h.2, heq⟩, fun _ => rfl⟩
        · next hne =>
            simp only [beq_iff_eq] at hne
            constructor
            · intro h0; exact absurd h0 (by simp)
            · intro ⟨_, _, hq⟩; exact absurd hq hne
  refine ⟨hiff, ?_, ?_⟩
  · intro g p k
    unfold prefix_match
    split
    · exact Or.inl rfl
    · split
      · exact Or.inr rfl
      · exact Or.inl rfl
  · intro g p k₁ k₂ _ hk _
    by_cases h2 : prefix_match g p k₂ = 1
    · have ⟨hg, hp, ht⟩ := (hiff g p k₂).mp h2
      have h1 : prefix_match g p k₁ = 1 := by
        refine (hiff g p k₁).mpr ⟨le_trans hk hg, le_trans hk hp, ?_⟩
        have := congrArg (List.take k₁) ht
        simpa [List.take_take, Nat.min_eq_left hk] using this
      simp [h1, h2]
    · rcases (show prefix_match g p k₂ = 0 ∨ prefix_match g p k₂ = 1 by
        unfold prefix_match; split
        · exact Or.inl rfl
        · split
          · exact Or.inr rfl
          · exact Or.inl rfl) with h0 | h1
      · simp [h0]
      · exact absurd h1 h2

/-- Witness for C5 at a concrete input. -/
theorem prefix_match_spec_witness :
    1 ≤ 1 ∧ 1 ≤ 3 ∧ 3 ≤ 10 ∧
      prefix_match "1234567890" "1239999999" 3 ≤ prefix_match "1234567890" "1239999999" 1 :=
  ⟨by decide, by decide, by decide,
    prefix_match_spec.2.2 "1234567890" "1239999999" 1 3 (by decide) (by decide) (by decide)⟩

/-! ### C3: the numeric tolerance boundary -/

/-- C3. `compare_numbers(100, 100.05, 0.001)` returns 1 and
`compare_numbers(100, 101, 0.001)` returns 0, with the relative difference
`|a-b| / max(|a|, |b|, 1e-9)` equal to `1/2001 ≤ 1/1000` in the first case
and `1/101 > 1/1000` in the second. -/
theorem compare_numbers_boundary :
    compare_numbers (.jint 100) (.jfloat (mkRat 2001 20)) (mkRat 1 1000) = 1 ∧
    compare_numbers (.jint 100) (.jint 101) (mkRat 1 1000) = 0 ∧
    |(100 : ℚ) - mkRat 2001 20| / max (max |(100 : ℚ)| |(mkRat 2001 20 : ℚ)|)
        (mkRat 1 1000000000) = mkRat 1 2001 ∧
    (mkRat 1 2001 : ℚ) ≤ mkRat 1 1000 ∧
    ¬ (|(100 : ℚ) - 101| / max (max |(100 : ℚ)| |(101 : ℚ)|) (mkRat 1 1000000000)
        ≤ mkRat 1 1000) := by
  have hq : (mkRat 2001 20 : ℚ) = 2001 / 20 := by rw [Rat.mkRat_eq_div]; norm_num
  have heps : (mkRat 1 1000000000 : ℚ) = 1 / 1000000000 := by
    rw [Rat.mkRat_eq_div]; norm_num
  have htol : (mkRat 1 1000 : ℚ) = 1 / 1000 := by rw [Rat.mkRat_eq_div]; norm_num
  have h2001 : (mkRat 1 2001 : ℚ) = 1 / 2001 := by rw [Rat.mkRat_eq_div]; norm_num
  have hrel1 : |(100 : ℚ) - mkRat 2001 20| / max (max |(100 : ℚ)| |(mkRat 2001 20 : ℚ)|)
      (mkRat 1 1000000000) = mkRat 1 2001 := by
    rw [hq, heps, h2001]
    rw [show |(100 : ℚ) - 2001 / 20| = 1 / 20 by rw [abs_of_nonpos] <;> norm_num]
    rw [show |(100 : ℚ)| = 100 from abs_of_nonneg (by norm_num)]
    rw [show |(2001 / 20 : ℚ)| = 2001 / 20 from abs_of_nonneg (by norm_num)]
    rw [max_eq_right (by norm_num : (100 : ℚ) ≤ 2001 / 20)]
    rw [max_eq_left (by norm_num : (1 / 1000000000 : ℚ) ≤ 2001 / 20)]
    norm_num
  have hrel2 : |(100 : ℚ) - 101| / max (max |(100 : ℚ)| |(101 : ℚ)|) (mkRat 1 1000000000)
      = 1 / 101 := by
    rw [heps]
    rw [show |(100 : ℚ) - 101| = 1 by rw [abs_of_nonpos] <;> norm_num]
    rw [show |(100 : ℚ)| = 100 from abs_of_nonneg (by norm_num)]
    rw [show |(101 : ℚ)| = 101 from abs_of_nonneg (by norm_num)]
    rw [max_eq_right (by norm_num : (100 : ℚ) ≤ 101)]
    rw [max_eq_left (by norm_num : (1 / 1000000000 : ℚ) ≤ 101)]
  refine ⟨?_, ?_, hrel1, ?_, ?_⟩
  · have hne : pyEq (.jint 100) (.jfloat (mkRat 2001 20)) = false := by decide
    have e1 : floatOrZero (.jint 100) = some 100 := by decide
    have e2 : floatOrZero (.jfloat (mkRat 2001 20)) = some (mkRat 2001 20) := rfl
    unfold compare_numbers
    simp only [hne, Bool.false_eq_true, if_false, e1, e2]
    rw [if_neg (by rw [hq]; norm_num)]
    rw [if_pos (by rw [hrel1, h2001, htol]; norm_num)]
  · have hne : pyEq (.jint 100) (.jint 101) = false := by decide
    have e1 : floatOrZero (.jint 100) = some 100 := by decide
    have e2 : floatOrZero (.jint 101) = some 101 := by decide
    unfold compare_numbers
    simp only [hne, Bool.false_eq_true, if_false, e1, e2]
    rw [if_neg (by norm_num)]
    rw [if_neg (by rw [hrel2, htol]; norm_num)]
  · rw [h2001, htol]; norm_num
  · rw [hrel2, htol]; norm_num

/-! ### C4: totality of the number matcher -/

/-- C4. `compare_numbers` always returns 0 or 1 (no exception escapes); if
either side fails coercion and the exact-equality shortcut did not fire, it
returns 0; the absent value coerces to `0.0`. -/
theorem compare_numbers_total :
    (∀ y pred tol, compare_numbers y pred tol = 0 ∨ compare_numbers y pred tol = 1) ∧
    (∀ y pred tol, pyEq y pred = false →
        (floatOrZero y = none ∨ floatOrZero pred = none) →
        compare_numbers y pred tol = 0) ∧
    floatOrZero .null = some 0 := by
  refine ⟨?_, ?_, rfl⟩
  · intro y pred tol
    unfold compare_numbers
    split
    · exact Or.inr rfl
    · rcases hy : floatOrZero y with _ | yf <;> rcases hp : floatOrZero pred with _ | pf
      · exact Or.inl rfl
      · exact Or.inl rfl
      · exact Or.inl rfl
      · by_cases hz : yf = 0 ∧ pf = 0
        · right; simp [hz]
        · by_cases hle : |yf - pf| / max (max |yf| |pf|) (mkRat 1 1000000000) ≤ tol
          · right; simp [hz, hle]
          · left; simp [hz, hle]
  · intro y pred tol h1 h2
    unfold compare_numbers
    simp only [h1, Bool.false_eq_true, if_false]
    rcases h2 with h | h
    · rw [h]
    · rw [h]
      rcases hy : floatOrZero y with _ | yf <;> rfl

/-- Witness for C4: a failing coercion on each side of a non-equal pair. -/
theorem compare_numbers_total_witness :
    pyEq (.jarr []) (.jstr "abc") = false ∧ floatOrZero (.jarr []) = none ∧
      compare_numbers (.jarr []) (.jstr "abc") (mkRat 1 1000) = 0 :=
  ⟨by decide, by decide,
    compare_numbers_total.2.1 _ _ _ (by decide) (Or.inl (by decide))⟩

/-! ### C2: identity shortcut, normalization and absence asymmetry -/

/-- C2 counterexample: `" x "` and `"x"` are identical after normalization
(trim + stringify), yet the classification/invoice/parser `compare_strings`
returns 0 at its default threshold — that variant never trims. -/
theorem compare_strings_trim_cex :
    norm_text (.jstr " x ") = norm_text (.jstr "x") ∧
    compare_strings (.jstr " x ") (.jstr "x") (mkRat 85 100) = 0 := by
  refine ⟨by decide, ?_⟩
  have h1 : pyEq (.jstr " x ") (.jstr "x") = false := by decide
  have h2 : msum " x ".toList "x".toList = 1 := by decide
  have hr : smRatio " x " "x" = 1 / 2 := by
    unfold smRatio
    rw [if_neg (by decide), h2]
    rw [show (" x ".toList.length + "x".toList.length) = 4 from by decide]
    norm_num
  have hss : compare_strings (.jstr " x ") (.jstr "x") (mkRat 85 100)
      = if mkRat 85 100 ≤ smRatio " x " "x" then 1 else 0 := by
    unfold compare_strings
    rw [h1]
    rfl
  rw [hss, hr, if_neg (by rw [Rat.mkRat_eq_div]; norm_num)]

/-- C2 (amended). The hscode `compare_strings` normalizes (stringify +
strip) before comparing, so normalized-equal inputs give 1; the
classification/invoice/parser variant applies no normalization before its
equality shortcut, so only raw (Python `==`) equality guarantees 1 there;
in every variant the exact-equality check runs before the absence check, so
`match(None, None, t) = 1` while `match("x", None, t) = match(None, "x", t)
= 0`. -/
theorem compare_strings_identity_and_absence :
    (∀ y pred t, norm_text y = norm_text pred → compare_strings_hs y pred t = 1) ∧
    (∀ y pred t, pyEq y pred = true → compare_strings y pred t = 1) ∧
    (∀ t, compare_strings .null .null t = 1) ∧
    (∀ t, compare_strings (.jstr "x") .null t = 0) ∧
    (∀ t, compare_strings .null (.jstr "x") t = 0) ∧
    (∀ t, compare_strings_hs .null .null t = 1) ∧
    (∀ t, compare_strings_hs (.jstr "x") .null t = 0) ∧
    (∀ t, compare_strings_hs .null (.jstr "x") t = 0) := by
  refine ⟨?_, ?_, fun t => rfl, fun t => rfl, fun t => rfl, fun t => rfl,
    fun t => rfl, fun t => rfl⟩
  · intro y pred t h
    simp [compare_strings_hs, h]
  · intro y pred t h
    simp [compare_strings, h]

/-- Witness for C2: two values that differ raw but agree after
normalization; the hscode variant scores them 1. -/
theorem compare_strings_identity_witness :
    norm_text (.jstr " a") = norm_text (.jstr "a  ") ∧
      compare_strings_hs (.jstr " a") (.jstr "a  ") (mkRat 85 100) = 1 :=
  ⟨by decide, compare_strings_identity_and_absence.1 _ _ _ (by decide)⟩

/-! ### C8: totality of safe_get -/

/-- C8 counterexample: resolving `"x.a"` in `{"x": 5}` reaches the
non-mapping node `5`; Python's `"a" not in 5` membership test raises
`TypeError` instead of returning the absent marker. -/
theorem safe_get_raises_cex :
    safe_get (.jobj [("x", .jint 5)]) "x.a" = .error .typeError := rfl

/-- One step of the walk at a mapping node: a missing key stops with the
absent marker, a present key descends into its value. -/
theorem walk_obj (fs : Obj) (k : String) (ks : List String) :
    safe_get_walk (.jobj fs) (k :: ks) =
      match lookupJ fs k with
      | none => .ok .null
      | some v => safe_get_walk v ks := by
  have h0 : safe_get_walk (.jobj fs) (k :: ks) =
      (if (!(lookupJ fs k).isSome) = true then Except.ok JVal.null
       else Except.bind (pySubscript (.jobj fs) k) fun v => safe_get_walk v ks) := rfl
  rw [h0]
  cases hl : lookupJ fs k with
  | none => simp
  | some v => simp [pySubscript, hl, Except.bind]

/-- The walk of `safe_get` is total wherever it only meets mappings or
`None`. -/
theorem safe_get_walk_ok :
    ∀ (ks : List String) (d : JVal), dictPathOk d ks = true →
      ∃ v, safe_get_walk d ks = .ok v
  | [], d, _ => ⟨d, rfl⟩
  | k :: ks, d, h => by
      cases d with
      | null => exact ⟨.null, rfl⟩
      | jobj fs =>
          rw [walk_obj]
          cases hl : lookupJ fs k with
          | none => exact ⟨.null, rfl⟩
          | some v =>
              have h' : dictPathOk v ks = true := by
                have h2 := h
                simp only [dictPathOk, hl] at h2
                exact h2
              exact safe_get_walk_ok ks v h'
      | jbool x => simp [dictPathOk] at h
      | jint n => simp [dictPathOk] at h
      | jfloat q => simp [dictPathOk] at h
      | jstr t => simp [dictPathOk] at h
      | jarr xs => simp [dictPathOk] at h

/-- C8 (amended). `safe_get` walks the document one segment at a time and
returns the absent marker, without raising, whenever the nodes it meets are
mappings (with or without the segment key) or `None`; a non-mapping,
non-`None` interior node can instead raise `TypeError` (see the
counterexample). -/
theorem safe_get_total_on_mappings :
    (∀ d path, dictPathOk d (pathSeg path) = true → ∃ v, safe_get d path = .ok v) ∧
    (∀ k ks, safe_get_walk .null (k :: ks) = .ok .null) ∧
    (∀ fs k ks, lookupJ fs k = none → safe_get_walk (.jobj fs) (k :: ks) = .ok .null) ∧
    (∀ fs k ks v, lookupJ fs k = some v →
        safe_get_walk (.jobj fs) (k :: ks) = safe_get_walk v ks) := by
  refine ⟨?_, fun k ks => rfl, ?_, ?_⟩
  · intro d path h
    exact safe_get_walk_ok (pathSeg path) d h
  · intro fs k ks hl
    rw [walk_obj, hl]
  · intro fs k ks v hl
    rw [walk_obj, hl]

/-- Witness for C8 at a concrete mapping-only document. -/
theorem safe_get_total_witness :
    dictPathOk (.jobj [("x", .jobj [("a", .jint 5)])]) (pathSeg "x.a") = true ∧
      ∃ v, safe_get (.jobj [("x", .jobj [("a", .jint 5)])]) "x.a" = .ok v :=
  ⟨by decide, safe_get_total_on_mappings.1 _ _ (by decide)⟩

/-! ### C7: the zero-division guard -/

/-- C7. With an empty ground-truth item list (hscode) or an empty
ground-truth path map (classification, e.g. an empty `files` list), every
per-item percentage evaluates to 0 through the `total == 0 → 0` guard;
`pctOf` is a total function, so no division error can occur. -/
theorem zero_division_guard :
    (∀ gt pred : Obj, ∀ minSim : ℚ, itemsOf gt = [] →
        hs_item_name_pct gt pred minSim = 0 ∧ hs_y10_pct gt = 0 ∧ hs_y6_pct gt = 0 ∧
        hs_pred10_pct gt pred = 0 ∧ hs_pred6_pct gt pred = 0 ∧
        (∀ k, hs_accuracy gt pred k = 0)) ∧
    (∀ gt pred : Obj, filesOf gt = [] →
        class_n_items gt = 0 ∧ class_accuracy gt pred = 0 ∧ class_per_type gt pred = []) ∧
    (∀ c : ℕ, pctOf c 0 = 0) := by
  refine ⟨?_, ?_, fun c => rfl⟩
  · intro gt pred minSim h
    have hn : hs_n_items gt = 0 := by simp [hs_n_items, h]
    exact ⟨by simp [hs_item_name_pct, hn, pctOf], by simp [hs_y10_pct, hn, pctOf],
      by simp [hs_y6_pct, hn, pctOf], by simp [hs_pred10_pct, hn, pctOf],
      by simp [hs_pred6_pct, hn, pctOf], fun k => by simp [hs_accuracy, hn, pctOf]⟩
  · intro gt pred h
    have hb : build_path_map gt = [] := by simp [build_path_map, h]
    have hc : commonPairs gt pred = [] := by simp [commonPairs, hb]
    refine ⟨by simp [class_n_items, hb], ?_, ?_⟩
    · simp [class_accuracy, class_n_items, hb]
    · simp [class_per_type, classTypes, hc, dedupFirst, dedupFirstAux]

/-- Witness for C7: the empty document. -/
theorem zero_division_guard_witness :
    itemsOf [] = [] ∧ filesOf [] = [] ∧ hs_accuracy [] hs6Doc 10 = 0 ∧
      class_accuracy [] classPrDoc = 0 :=
  ⟨rfl, rfl, ((zero_division_guard.1 [] hs6Doc (mkRat 85 100) rfl).2.2.2.2.2) 10,
    (zero_division_guard.2.1 [] classPrDoc rfl).2.1⟩

/-! ### C6: missing/extra formulas and the ground-truth denominator -/

/-- C6. `missing_items`/`extra_items` are `max(0, n_gt - n_pred)` and
`max(0, n_pred - n_gt)` (in both the invoice and the summary evaluators,
where they are reported), and every per-item percentage divides by the
ground-truth item count: with 3 ground-truth and 5 predicted items,
`missing_items = 0`, `extra_items = 2`, and the invoice report and hscode
percentages all divide by 3, not 5. -/
theorem denominator_stability :
    (∀ y pred : Obj,
        (inv_missing y pred : ℤ) = max 0 ((inv_n_items y : ℤ) - (inv_n_items pred : ℤ)) ∧
        (inv_extra y pred : ℤ) = max 0 ((inv_n_items pred : ℤ) - (inv_n_items y : ℤ))) ∧
    (∀ gt pred : Obj,
        (sum_missing gt pred : ℤ) = max 0 ((sum_n_items gt : ℤ) - (sum_n_items pred : ℤ)) ∧
        (sum_extra gt pred : ℤ) = max 0 ((sum_n_items pred : ℤ) - (sum_n_items gt : ℤ))) ∧
    (∀ y pred : Obj, inv_n_items y = 3 → inv_n_items pred = 5 →
        inv_missing y pred = 0 ∧ inv_extra y pred = 2 ∧
        inv_report_pct (inv_item_name_matches y pred) (inv_n_items y)
          = (inv_item_name_matches y pred : ℚ) / 3 * 100 ∧
        inv_report_pct (inv_quantity_matches y pred) (inv_n_items y)
          = (inv_quantity_matches y pred : ℚ) / 3 * 100 ∧
        inv_report_pct (inv_unit_price_matches y pred) (inv_n_items y)
          = (inv_unit_price_matches y pred : ℚ) / 3 * 100 ∧
        inv_report_pct (inv_total_price_matches y pred) (inv_n_items y)
          = (inv_total_price_matches y pred : ℚ) / 3 * 100) ∧
    (∀ gt pred : Obj, ∀ minSim : ℚ, hs_n_items gt = 3 →
        hs_item_name_pct gt pred minSim
          = (hs_item_name_matches gt pred minSim : ℚ) / 3 * 100 ∧
        ∀ k, hs_accuracy gt pred k = (hs_prefix_hits gt pred k : ℚ) / 3 * 100) := by
  refine ⟨?_, ?_, ?_, ?_⟩
  · intro y pred
    constructor <;> · simp only [inv_missing, inv_extra]; omega
  · intro gt pred
    constructor <;> · simp only [sum_missing, sum_extra]; omega
  · intro y pred hy hp
    refine ⟨by simp [inv_missing, hy, hp], by simp [inv_extra, hy, hp], ?_, ?_, ?_, ?_⟩ <;>
      · rw [hy]; simp [inv_report_pct]
  · intro gt pred minSim h
    exact ⟨by rw [hs_item_name_pct, h]; simp [pctOf],
      fun k => by rw [hs_accuracy, h]; simp [pctOf]⟩

/-- Witness for C6 with 3 ground-truth and 5 predicted items. -/
theorem denominator_stability_witness :
    inv_n_items threeItemDoc = 3 ∧ inv_n_items fiveItemDoc = 5 ∧
      hs_n_items threeItemDoc = 3 ∧
      inv_missing threeItemDoc fiveItemDoc = 0 ∧ inv_extra threeItemDoc fiveItemDoc = 2 ∧
      inv_report_pct (inv_item_name_matches threeItemDoc fiveItemDoc)
          (inv_n_items threeItemDoc)
        = (inv_item_name_matches threeItemDoc fiveItemDoc : ℚ) / 3 * 100 ∧
      hs_accuracy threeItemDoc fiveItemDoc 10
        = (hs_prefix_hits threeItemDoc fiveItemDoc 10 : ℚ) / 3 * 100 :=
  ⟨rfl, rfl, rfl,
    (denominator_stability.2.2.1 threeItemDoc fiveItemDoc rfl rfl).1,
    (denominator_stability.2.2.1 threeItemDoc fiveItemDoc rfl rfl).2.1,
    (denominator_stability.2.2.1 threeItemDoc fiveItemDoc rfl rfl).2.2.1,
    (denominator_stability.2.2.2 threeItemDoc fiveItemDoc (mkRat 85 100) rfl).2 10⟩

/-! ### C9: the classification scenario -/

/-- C9. On the spec's classification scenario the report counts
`missing_items = 1` (`b.pdf`), `extra_items = 1` (`c.pdf`),
`n_items = 2`; comparisons run only over the key-set intersection, which is
exactly `{a.pdf}`, that single comparable item scores a match
(`correct = 1`), and its per-type percentage is 100%. -/
theorem classification_scenario :
    class_missing classGtDoc classPrDoc = 1 ∧
    class_extra classGtDoc classPrDoc = 1 ∧
    class_n_items classGtDoc = 2 ∧
    commonPairs classGtDoc classPrDoc = [("a.pdf", "invoice")] ∧
    class_correct classGtDoc classPrDoc = 1 ∧
    class_per_type classGtDoc classPrDoc = [("invoice", 100)] := by
  refine ⟨by decide, by decide, by decide, by decide, by decide, ?_⟩
  have h1 : classTypes classGtDoc classPrDoc = ["invoice"] := by decide
  have h2 : (commonPairs classGtDoc classPrDoc).filter (fun p => p.2 == "invoice")
      = [("a.pdf", "invoice")] := by decide
  have h3 : classMatch classPrDoc ("a.pdf", "invoice") = 1 := by decide
  simp [class_per_type, h1, h2, h3]

/-! ### C10: build_path_map collapsing -/

theorem any_key_iff (m : List (String × String)) (k : String) :
    m.any (fun p => p.1 == k) = true ↔ k ∈ m.map Prod.fst := by
  simp [List.any_eq_true, List.mem_map, beq_iff_eq]

theorem lookupS_cons (p : String × String) (m : List (String × String)) (k : String) :
    lookupS (p :: m) k = if p.1 = k then some p.2 else lookupS m k := by
  by_cases hp : p.1 = k
  · simp [lookupS, List.find?, hp]
  · have hb : (p.1 == k) = false := by simpa using hp
    simp [lookupS, List.find?, hb, hp]

theorem keys_replace (m : List (String × String)) (k v : String) :
    (m.map (fun p => if p.1 == k then (k, v) else p)).map Prod.fst = m.map Prod.fst := by
  rw [List.map_map]
  apply List.map_congr_left
  intro p _
  by_cases hpk : p.1 = k <;> simp [hpk]

theorem lookup_replace_self (m : List (String × String)) (k v : String)
    (h : m.any (fun p => p.1 == k) = true) :
    lookupS (m.map (fun p => if p.1 == k then (k, v) else p)) k = some v := by
  induction m with
  | nil => simp at h
  | cons p m ih =>
      rw [List.map_cons]
      by_cases hp : p.1 = k
      · rw [show (if (p.1 == k) = true then (k, v) else p) = (k, v) from by simp [hp]]
        rw [lookupS_cons, if_pos rfl]
      · rw [show (if (p.1 == k) = true then (k, v) else p) = p from by simp [hp]]
        rw [lookupS_cons, if_neg hp]
        exact ih (by simpa [List.any_cons, hp] using h)

theorem lookup_replace_other (m : List (String × String)) (k v k' : String)
    (hne : k' ≠ k) :
    lookupS (m.map (fun p => if p.1 == k then (k, v) else p)) k' = lookupS m k' := by
  induction m with
  | nil => rfl
  | cons p m ih =>
      rw [List.map_cons]
      by_cases hp : p.1 = k
      · rw [show (if (p.1 == k) = true then (k, v) else p) = (k, v) from by simp [hp]]
        rw [lookupS_cons, lookupS_cons, if_neg (Ne.symm hne),
          if_neg (by rw [hp]; exact Ne.symm hne)]
        exact ih
      · rw [show (if (p.1 == k) = true then (k, v) else p) = p from by simp [hp]]
        rw [lookupS_cons, lookupS_cons]
        by_cases hq : p.1 = k'
        · rw [if_pos hq, if_pos hq]
        · rw [if_neg hq, if_neg hq]
          exact ih

theorem lookupS_dictInsert (m : List (String × String)) (k v k' : String) :
    lookupS (dictInsert m k v) k' = if k' = k then some v else lookupS m k' := by
  unfold dictInsert
  split
  · next hany =>
      by_cases he : k' = k
      · subst he
        rw [if_pos rfl]
        exact lookup_replace_self m k' v hany
      · rw [if_neg he]
        exact lookup_replace_other m k v k' he
  · next hany =>
      have hfind : (m.find? fun p => p.1 == k) = none := by
        apply List.find?_eq_none.mpr
        intro p hp hc
        exact hany (List.any_eq_true.mpr ⟨p, hp, hc⟩)
      by_cases he : k' = k
      · subst he
        rw [if_pos rfl, lookupS, List.find?_append, hfind]
        simp [List.find?]
      · rw [if_neg he, lookupS, List.find?_append]
        have hsingle : ([(k, v)].find? fun p => p.1 == k') = none := by
          rw [List.find?_eq_none]
          intro p hp hc
          rw [List.mem_singleton] at hp
          rw [hp] at hc
          exact he (Eq.symm (by simpa using hc))
        rw [hsingle]
        simp [lookupS]

theorem keys_dictInsert_toFinset (m : List (String × String)) (k v : String) :
    ((dictInsert m k v).map Prod.fst).toFinset = insert k ((m.map Prod.fst).toFinset) := by
  unfold dictInsert
  split
  · next hany =>
      have hmem : k ∈ m.map Prod.fst := (any_key_iff m k).mp hany
      rw [keys_replace, Finset.insert_eq_self.mpr (List.mem_toFinset.mpr hmem)]
  · next hany =>
      simp [List.map_append, List.toFinset_append, Finset.union_comm, Finset.insert_eq]

theorem keys_dictInsert_nodup (m : List (String × String)) (k v : String)
    (h : (m.map Prod.fst).Nodup) : ((dictInsert m k v).map Prod.fst).Nodup := by
  unfold dictInsert
  split
  · next hany => rwa [keys_replace]
  · next hany =>
      have hk : k ∉ m.map Prod.fst := fun hm => hany ((any_key_iff m k).mpr hm)
      simp [List.map_append, List.nodup_append, h, hk]

theorem lookupS_foldl (k : String) (hk : k ≠ "") :
    ∀ (fs : List JVal) (m : List (String × String)),
      lookupS (fs.foldl
          (fun m f => if pathKey f = "" then m else dictInsert m (pathKey f) (typeVal f)) m) k
        = match fs.reverse.find? (fun f => pathKey f == k) with
          | some f => some (typeVal f)
          | none => lookupS m k
  | [], m => by simp
  | f :: fs, m => by
      rw [List.foldl_cons, lookupS_foldl k hk fs _, List.reverse_cons, List.find?_append]
      cases hf : fs.reverse.find? (fun f => pathKey f == k) with
      | some g => simp [Option.or]
      | none =>
          simp only [Option.none_or]
          by_cases hpk : pathKey f = k
          · have hfind : [f].find? (fun f => pathKey f == k) = some f := by
              simp [List.find?, hpk]
            rw [hfind, if_neg (by rw [hpk]; exact hk), lookupS_dictInsert]
            simp [hpk]
          · have hfind : [f].find? (fun f => pathKey f == k) = none := by
              have hb : (pathKey f == k) = false := by simpa using hpk
              simp [List.find?, hb]
            rw [hfind]
            by_cases hempty : pathKey f = ""
            · rw [if_pos hempty]
            · rw [if_neg hempty, lookupS_dictInsert,
                if_neg (fun he => hpk (Eq.symm he))]

theorem keys_foldl_toFinset :
    ∀ (fs : List JVal) (m : List (String × String)),
      (((fs.foldl
          (fun m f => if pathKey f = "" then m else dictInsert m (pathKey f) (typeVal f)) m).map
            Prod.fst).toFinset : Finset String)
        = ((m.map Prod.fst).toFinset)
            ∪ ((fs.map pathKey).filter (fun s => s != "")).toFinset
  | [], m => by simp
  | f :: fs, m => by
      rw [List.foldl_cons, keys_foldl_toFinset fs _]
      by_cases hpk : pathKey f = ""
      · rw [if_pos hpk]
        simp [hpk]
      · rw [if_neg hpk, keys_dictInsert_toFinset]
        simp only [List.map_cons, List.filter_cons, show (pathKey f != "") = true from by
          simp [hpk], if_true, List.toFinset_cons]
        rw [Finset.insert_union, Finset.union_insert]

theorem keys_foldl_nodup :
    ∀ (fs : List JVal) (m : List (String × String)),
      (m.map Prod.fst).Nodup →
      ((fs.foldl
          (fun m f => if pathKey f = "" then m else dictInsert m (pathKey f) (typeVal f)) m).map
            Prod.fst).Nodup
  | [], _, h => h
  | f :: fs, m, h => by
      rw [List.foldl_cons]
      apply keys_foldl_nodup fs
      by_cases hpk : pathKey f = ""
      · rwa [if_pos hpk]
      · rw [if_neg hpk]
        exact keys_dictInsert_nodup m _ _ h

/-- C10. `build_path_map` silently drops entries whose trimmed path is
empty; entries sharing a trimmed path collapse to one key carrying the
*last* occurrence's type; `n_items` is the number of distinct non-empty
trimmed ground-truth paths — on `dupPathDoc` (three entries: a whitespace
path and a duplicated `a.pdf`) it is 1, strictly smaller than the length 3
of the `files` list, and the surviving binding is the last one
(`receipt`). -/
theorem build_path_map_collapse :
    (∀ d : Obj, ∀ k : String,
        k ∈ (build_path_map d).map Prod.fst ↔ (k ≠ "" ∧ k ∈ (filesOf d).map pathKey)) ∧
    (∀ d : Obj, ∀ k : String, k ≠ "" →
        lookupS (build_path_map d) k
          = ((filesOf d).reverse.find? (fun f => pathKey f == k)).map typeVal) ∧
    (∀ d : Obj, class_n_items d
        = (((filesOf d).map pathKey).filter (fun s => s != "")).toFinset.card) ∧
    class_n_items dupPathDoc = 1 ∧ (filesOf dupPathDoc).length = 3 ∧
    lookupS (build_path_map dupPathDoc) "a.pdf" = some "receipt" := by
  refine ⟨?_, ?_, ?_, by decide, by decide, by decide⟩
  · intro d k
    rw [← List.mem_toFinset, build_path_map, keys_foldl_toFinset]
    simp only [List.map_nil, List.toFinset_nil, Finset.empty_union, List.mem_toFinset,
      List.mem_filter, bne_iff_ne, ne_eq]
    tauto
  · intro d k hk
    rw [build_path_map, lookupS_foldl k hk]
    cases hf : (filesOf d).reverse.find? (fun f => pathKey f == k) <;>
      simp [lookupS, List.find?]
  · intro d
    have hnodup : ((build_path_map d).map Prod.fst).Nodup :=
      keys_foldl_nodup (filesOf d) [] (by simp)
    have hcard := List.toFinset_card_of_nodup hnodup
    rw [class_n_items, show (build_path_map d).length
        = ((build_path_map d).map Prod.fst).length from (List.length_map _ _).symm,
      ← hcard, build_path_map, keys_foldl_toFinset]
    simp

/-- Witness for C10: the duplicate-path document keeps the last type. -/
theorem build_path_map_collapse_witness :
    ("a.pdf" : String) ≠ "" ∧
      lookupS (build_path_map dupPathDoc) "a.pdf"
        = ((filesOf dupPathDoc).reverse.find? (fun f => pathKey f == "a.pdf")).map typeVal :=
  ⟨by decide, build_path_map_collapse.2.1 dupPathDoc "a.pdf" (by decide)⟩

/-! ### C1: exact self-match -/

theorem map_sum_ones {α : Type} (f : α → ℕ) :
    ∀ l : List α, (∀ x ∈ l, f x = 1) → (l.map f).sum = l.length
  | [], _ => rfl
  | x :: l, h => by
      have hx := h x (by simp)
      have ih := map_sum_ones f l (fun y hy => h y (by simp [hy]))
      simp [hx, ih, Nat.add_comm]

theorem map_sum_ones_rat {α : Type} (f : α → ℚ) :
    ∀ l : List α, (∀ x ∈ l, f x = 1) → (l.map f).sum = l.length
  | [], _ => by simp
  | x :: l, h => by
      have hx := h x (by simp)
      have ih := map_sum_ones_rat f l (fun y hy => h y (by simp [hy]))
      simp [hx, ih]
      ring

theorem zip_self_filter_length {α : Type} (p : α × α → Bool) :
    ∀ l : List α, (∀ x ∈ l, p (x, x) = true) → ((l.zip l).filter p).length = l.length
  | [], _ => rfl
  | x :: l, h => by
      have hx := h x (by simp)
      have ih := zip_self_filter_length p l (fun y hy => h y (by simp [hy]))
      simp [List.zip_cons_cons, List.filter_cons, hx, ih]

theorem lookupS_self_nodup :
    ∀ (m : List (String × String)), (m.map Prod.fst).Nodup →
      ∀ p ∈ m, lookupS m p.1 = some p.2
  | [], _, p, hp => absurd hp (List.not_mem_nil p)
  | q :: m, h, p, hp => by
      rw [lookupS_cons]
      rcases List.mem_cons.mp hp with he | hm
      · subst he
        rw [if_pos rfl]
      · have hq : q.1 ≠ p.1 := by
          intro hc
          have h1 : q.1 ∈ m.map Prod.fst := hc ▸ List.mem_map_of_mem Prod.fst hm
          exact (List.nodup_cons.mp (by simpa using h)).1 h1
        rw [if_neg hq]
        exact lookupS_self_nodup m (List.nodup_cons.mp (by simpa using h)).2 p hm

theorem mem_dedupFirstAux :
    ∀ (l seen : List String) (x : String), x ∈ dedupFirstAux seen l → x ∈ l
  | [], _, x, h => absurd h (List.not_mem_nil x)
  | y :: l, seen, x, h => by
      rw [dedupFirstAux] at h
      split at h
      · exact List.mem_cons_of_mem y (mem_dedupFirstAux l seen x h)
      · rcases List.mem_cons.mp h with he | hm
        · exact he ▸ List.mem_cons_self y l
        · exact List.mem_cons_of_mem y (mem_dedupFirstAux l (y :: seen) x hm)

theorem pctOf_self (n : ℕ) (h : n ≠ 0) : pctOf n n = 100 := by
  rw [pctOf, if_neg h, div_self (Nat.cast_ne_zero.mpr h), one_mul]

theorem bind_ok_pyerr {α β : Type} (a : α) (f : α → Except PyErr β) :
    ((Except.ok a : Except PyErr α) >>= f) = f a := rfl

theorem bind_error_pyerr {α β : Type} (e : PyErr) (f : α → Except PyErr β) :
    ((Except.error e : Except PyErr α) >>= f) = .error e := rfl

theorem evalFields_self :
    ∀ (flds : List String) (gt : Obj) (rs : List (String × ℕ)),
      evalFields gt gt flds = .ok rs → rs = flds.map (fun fld => (fld, 1))
  | [], gt, rs, h => by
      rw [evalFields] at h
      cases h
      rfl
  | fld :: rest, gt, rs, h => by
      rw [evalFields] at h
      cases hsg : safe_get (.jobj gt) fld with
      | error e =>
          rw [hsg, bind_error_pyerr] at h
          exact Except.noConfusion h
      | ok v =>
          rw [hsg, bind_ok_pyerr, bind_ok_pyerr] at h
          cases hrest : evalFields gt gt rest with
          | error e =>
              rw [hrest, bind_error_pyerr] at h
              exact Except.noConfusion h
          | ok r0 =>
              rw [hrest, bind_ok_pyerr] at h
              have hr0 := evalFields_self rest gt r0 hrest
              cases h
              rw [List.map_cons, compare_strings_self, hr0]

/-- C1 counterexample: the document `hs6Doc` (one item, HS code of six
digits) evaluated against itself still reports the per-item percentage
`accuracy_10 = 0`, because `prefix_match` needs ten digits on both sides
even when they are identical. -/
theorem self_match_cex :
    hs_n_items hs6Doc = 1 ∧ hs_accuracy hs6Doc hs6Doc 10 = 0 := by
  refine ⟨rfl, ?_⟩
  have h : hs_prefix_hits hs6Doc hs6Doc 10 = 0 := by decide
  rw [hs_accuracy, h, show hs_n_items hs6Doc = 1 from rfl]
  simp [pctOf]

/-- C1 (amended). For any document used as both ground truth and predicted:
`missing_items = extra_items = 0` wherever reported, every field-level
match scores 1, and every per-field/per-item percentage equals 100%
provided its ground-truth denominator is nonzero — except that the hscode
prefix-accuracy at `k` further needs every ground-truth code to have at
least `k` digits, and the summary HS percentage further needs every
ground-truth code to normalize to a nonempty digit string (the generic
field evaluator needs no proviso at all whenever resolution succeeds). -/
theorem exact_self_match :
    (∀ gt : Obj, ∀ rs, genericFieldResults gt gt = .ok rs →
        (∀ p ∈ rs, p.2 = 1) ∧ generic_accuracy rs = 100) ∧
    (∀ gt : Obj,
        class_missing gt gt = 0 ∧ class_extra gt gt = 0 ∧
        class_correct gt gt = class_n_items gt ∧
        (class_n_items gt ≠ 0 → class_accuracy gt gt = 100) ∧
        (∀ t q, (t, q) ∈ class_per_type gt gt → q = 100)) ∧
    (∀ y : Obj,
        inv_seller y y = 1 ∧ inv_sum_qty y y = 1 ∧ inv_sum_price y y = 1 ∧
        inv_currency y y = 1 ∧ inv_item_count_match y y = 1 ∧
        inv_missing y y = 0 ∧ inv_extra y y = 0 ∧
        inv_item_name_matches y y = inv_n_items y ∧
        inv_quantity_matches y y = inv_n_items y ∧
        inv_unit_price_matches y y = inv_n_items y ∧
        inv_total_price_matches y y = inv_n_items y ∧
        (inv_n_items y ≠ 0 →
          inv_report_pct (inv_item_name_matches y y) (inv_n_items y) = 100 ∧
          inv_report_pct (inv_quantity_matches y y) (inv_n_items y) = 100 ∧
          inv_report_pct (inv_unit_price_matches y y) (inv_n_items y) = 100 ∧
          inv_report_pct (inv_total_price_matches y y) (inv_n_items y) = 100)) ∧
    (∀ gt : Obj, ∀ minSim : ℚ,
        sum_seller_pct gt gt minSim = 100 ∧ sum_missing gt gt = 0 ∧ sum_extra gt gt = 0 ∧
        sum_item_count_pct gt gt = 100 ∧
        (sum_n_items gt ≠ 0 → sum_summary_pct gt gt minSim = 100) ∧
        (sum_n_items gt ≠ 0 → (∀ p ∈ extract_pairs gt, p.1 ≠ "") →
          sum_hs_pct gt gt = 100)) ∧
    (∀ gt : Obj, ∀ minSim : ℚ,
        hs_seller_pct gt gt minSim = 100 ∧
        (hs_n_items gt ≠ 0 → hs_item_name_pct gt gt minSim = 100) ∧
        (∀ k, hs_n_items gt ≠ 0 → (∀ g ∈ itemsOf gt, k ≤ (hsOf g).length) →
          hs_accuracy gt gt k = 100)) := by
  refine ⟨?_, ?_, ?_, ?_, ?_⟩
  · -- generic-field evaluator
    intro gt rs h
    have hrs := evalFields_self fields_to_check gt rs h
    subst hrs
    constructor
    · intro p hp
      rcases List.mem_map.mp hp with ⟨fld, _, he⟩
      rw [← he]
    · rw [generic_accuracy, List.map_map,
        map_sum_ones_rat _ fields_to_check (fun x _ => by norm_num)]
      rw [div_self (by norm_num [fields_to_check]), one_mul]
  · -- classification
    intro gt
    have hnodup : ((build_path_map gt).map Prod.fst).Nodup :=
      keys_foldl_nodup (filesOf gt) [] (by simp)
    have hlook : ∀ p ∈ build_path_map gt, lookupS (build_path_map gt) p.1 = some p.2 :=
      lookupS_self_nodup (build_path_map gt) hnodup
    have hcommon : commonPairs gt gt = build_path_map gt := by
      rw [commonPairs]
      apply List.filter_eq_self.mpr
      intro p hp
      rw [hlook p hp]
      rfl
    have hmatch : ∀ p ∈ commonPairs gt gt, classMatch gt p = 1 := by
      intro p hp
      rw [hcommon] at hp
      rw [classMatch, hlook p hp]
      exact compare_strings_self _ _
    have hcorrect : class_correct gt gt = class_n_items gt := by
      rw [class_correct, map_sum_ones (classMatch gt) _ hmatch, hcommon, class_n_items]
    refine ⟨?_, ?_, hcorrect, ?_, ?_⟩
    · rw [class_missing]
      rw [List.length_eq_zero]
      apply List.filter_eq_nil_iff.mpr
      intro p hp
      rw [hlook p hp]
      simp
    · rw [class_extra]
      rw [List.length_eq_zero]
      apply List.filter_eq_nil_iff.mpr
      intro p hp
      rw [hlook p hp]
      simp
    · intro hn
      rw [class_accuracy, if_neg hn, hcorrect, div_self (Nat.cast_ne_zero.mpr hn), one_mul]
    · intro t q hq
      rcases List.mem_map.mp hq with ⟨t', ht', he⟩
      have hq' : q = (((((commonPairs gt gt).filter (fun p => p.2 == t')).map
          (classMatch gt)).sum : ℕ) : ℚ)
            / ((((commonPairs gt gt).filter (fun p => p.2 == t')).length : ℕ) : ℚ) * 100 := by
        rw [← (Prod.mk.injEq _ _ _ _).mp he |>.2]
      have hsum : (((commonPairs gt gt).filter (fun p => p.2 == t')).map
          (classMatch gt)).sum
          = ((commonPairs gt gt).filter (fun p => p.2 == t')).length :=
        map_sum_ones _ _ (fun p hp => hmatch p (List.mem_of_mem_filter hp))
      have hne : ((commonPairs gt gt).filter (fun p => p.2 == t')).length ≠ 0 := by
        have ht'' := mem_dedupFirstAux _ _ _ ht'
        rcases List.mem_map.mp ht'' with ⟨p, hp, hpe⟩
        have : p ∈ (commonPairs gt gt).filter (fun p => p.2 == t') :=
          List.mem_filter.mpr ⟨hp, by simp [hpe]⟩
        intro hlen
        rw [List.length_eq_zero] at hlen
        rw [hlen] at this
        exact List.not_mem_nil p this
      rw [hq', hsum, div_self (Nat.cast_ne_zero.mpr hne), one_mul]
  · -- invoice
    intro y
    have h1 : inv_item_name_matches y y = inv_n_items y := by
      rw [inv_item_name_matches, inv_n_items]
      exact zip_self_sum _ (itemsOf y) (fun x _ => compare_strings_self _ _)
    have h2 : inv_quantity_matches y y = inv_n_items y := by
      rw [inv_quantity_matches, inv_n_items]
      exact zip_self_sum _ (itemsOf y) (fun x _ => compare_numbers_self _ _)
    have h3 : inv_unit_price_matches y y = inv_n_items y := by
      rw [inv_unit_price_matches, inv_n_items]
      exact zip_self_sum _ (itemsOf y) (fun x _ => compare_numbers_self _ _)
    have h4 : inv_total_price_matches y y = inv_n_items y := by
      rw [inv_total_price_matches, inv_n_items]
      exact zip_self_sum _ (itemsOf y) (fun x _ => compare_numbers_self _ _)
    have hrep : ∀ c : ℕ, c ≠ 0 → inv_report_pct c c = 100 := by
      intro c hc
      rw [inv_report_pct, Nat.max_eq_left (Nat.one_le_iff_ne_zero.mpr hc),
        div_self (Nat.cast_ne_zero.mpr hc), one_mul]
    refine ⟨compare_strings_self _ _, compare_numbers_self _ _, compare_numbers_self _ _,
      compare_strings_self _ _, by rw [inv_item_count_match, if_pos rfl],
      Nat.sub_self _, Nat.sub_self _, h1, h2, h3, h4, ?_⟩
    intro hn
    exact ⟨by rw [h1]; exact hrep _ hn, by rw [h2]; exact hrep _ hn,
      by rw [h3]; exact hrep _ hn, by rw [h4]; exact hrep _ hn⟩
  · -- summary
    intro gt minSim
    refine ⟨?_, Nat.sub_self _, Nat.sub_self _, by rw [sum_item_count_pct, if_pos rfl], ?_, ?_⟩
    · rw [sum_seller_pct, sum_seller, compare_strings_summary_self]
      norm_num
    · intro hn
      rw [sum_summary_pct, sum_summary_match,
        zip_self_sum _ (extract_pairs gt) (fun x _ => compare_strings_summary_self _ _)]
      exact pctOf_self _ hn
    · intro hn hall
      rw [sum_hs_pct, sum_hs_exact, zip_self_filter_length _ (extract_pairs gt) ?_]
      · exact pctOf_self _ hn
      · intro p hp
        have hne := hall p hp
        have : p.1.isEmpty = false := by
          cases hi : p.1.isEmpty
          · rfl
          · exact absurd ((String.isEmpty_iff p.1).mp (by simp [hi])) hne
        simp [this]
  · -- hscode
    intro gt minSim
    refine ⟨?_, ?_, ?_⟩
    · rw [hs_seller_pct, compare_strings_hs_self]
      norm_num
    · intro hn
      rw [hs_item_name_pct, hs_item_name_matches,
        zip_self_sum _ (itemsOf gt) (fun x _ => compare_strings_hs_self _ _)]
      exact pctOf_self _ hn
    · intro k hn hall
      rw [hs_accuracy, hs_prefix_hits, zip_self_sum _ (itemsOf gt) ?_]
      · exact pctOf_self _ hn
      · intro g hg
        rw [prefix_match, if_neg (by push_neg; exact ⟨hall g hg, hall g hg⟩)]
        simp

/-- Witness for C1: concrete self-matched documents for each evaluator. -/
theorem exact_self_match_witness :
    (genericFieldResults [] [] = .ok (fields_to_check.map fun fld => (fld, 1)) ∧
      generic_accuracy (fields_to_check.map fun fld => (fld, 1)) = 100) ∧
    (class_n_items classGtDoc ≠ 0 ∧ class_accuracy classGtDoc classGtDoc = 100) ∧
    (inv_n_items threeItemDoc ≠ 0 ∧
      inv_report_pct (inv_item_name_matches threeItemDoc threeItemDoc)
        (inv_n_items threeItemDoc) = 100) ∧
    (sum_n_items sumSelfDoc ≠ 0 ∧ (∀ p ∈ extract_pairs sumSelfDoc, p.1 ≠ "") ∧
      sum_summary_pct sumSelfDoc sumSelfDoc (mkRat 85 100) = 100 ∧
      sum_hs_pct sumSelfDoc sumSelfDoc = 100) ∧
    (hs_n_items hsValidDoc ≠ 0 ∧ (∀ g ∈ itemsOf hsValidDoc, 10 ≤ (hsOf g).length) ∧
      hs_accuracy hsValidDoc hsValidDoc 10 = 100) :=
by
  have hpairs : ∀ p ∈ extract_pairs sumSelfDoc, p.1 ≠ "" := by
    intro p hp
    have he := List.mem_singleton.mp hp
    subst he
    decide
  have hcodes : ∀ g ∈ itemsOf hsValidDoc, 10 ≤ (hsOf g).length := by
    intro g hg
    have he := List.mem_singleton.mp hg
    subst he
    decide
  exact ⟨⟨rfl, (exact_self_match.1 [] _ rfl).2⟩,
    ⟨by decide, (exact_self_match.2.1 classGtDoc).2.2.2.1 (by decide)⟩,
    ⟨by decide, ((exact_self_match.2.2.1 threeItemDoc).2.2.2.2.2.2.2.2.2.2.2 (by decide)).1⟩,
    ⟨by decide, hpairs,
      (exact_self_match.2.2.2.1 sumSelfDoc (mkRat 85 100)).2.2.2.2.1 (by decide),
      (exact_self_match.2.2.2.1 sumSelfDoc (mkRat 85 100)).2.2.2.2.2 (by decide) hpairs⟩,
    ⟨by decide, hcodes,
      (exact_self_match.2.2.2.2 hsValidDoc (mkRat 85 100)).2.2 10 (by decide) hcodes⟩⟩
